import Mathlib

/-!
Shallow embedding of the audio crop-region editor
(`src/components/AudioPlayer/AudioPlayer.tsx` together with
`src/components/AudioPlayer/config/waveConfig.js`).

Times are modelled as exact rationals (`ℚ`).  The component's session
state (`this.state`) becomes the structure `State`; the opaque
`waveSurfer` handle is modelled by its presence flag `hasWaveSurfer`
(`waveSurfer` is only ever tested for truthiness and used as a call
target).  Every call the handlers make on the rendering engine, and the
one `alert`, is recorded in order in a `List Effect`, so each handler
becomes a pure function `... → State → State × List Effect`.
React's `setState` calls inside one handler merge; they are modelled as
sequential record updates, which yields the same final state.
-/

namespace Mozart

/-- A region held by the rendering engine, as passed to `addRegion`
(`{start, end, color}`); the `end` field is named `endP` because `end`
is a Lean keyword. -/
structure Region where
  start : ℚ
  endP : ℚ
  color : String
  deriving Repr, DecidableEq

/-- `REGION_COLOR` from `AudioPlayer.tsx`. -/
def REGION_COLOR : String := "rgba(0, 123, 255, 0.48)"

/-- The message shown by `handleClickCut`. -/
def notImplementedMsg : String := "Not yet implemented :("

/-- The engine configuration from `config/waveConfig.js` (the commented
out `cursorColor` is omitted, as in the source). -/
structure WaveConfig where
  barWidth : ℚ
  barGap : ℚ
  cursorWidth : ℚ
  waveColor : String
  progressColor : String
  skipLength : ℚ
  deriving Repr, DecidableEq

/-- The default export of `config/waveConfig.js`. -/
def waveConfig : WaveConfig :=
  { barWidth := 2
    barGap := 2
    cursorWidth := 0
    waveColor := "#525353"
    progressColor := "#232526"
    skipLength := 5 }

/-- The component's session state (`State` in `AudioPlayer.tsx`).
`hasWaveSurfer` models presence of the optional `waveSurfer` handle. -/
structure State where
  isPlaying : Bool
  cutStart : ℚ
  originalCutStart : ℚ
  cutEnd : ℚ
  originalCutEnd : ℚ
  hasWaveSurfer : Bool
  wasRegionChanged : Bool
  deriving Repr, DecidableEq

/-- The state installed by the constructor.  In the source the four
bound fields start as `NaN`; `ℚ` has no `NaN`, so they are modelled as
`0`.  No handler reads them before `onWaveSurferReady` overwrites all
four (the drag and transport handlers bail out while `waveSurfer` is
absent), so the placeholder value is never observable. -/
def initialState : State :=
  { isPlaying := false
    originalCutStart := 0
    originalCutEnd := 0
    cutStart := 0
    cutEnd := 0
    hasWaveSurfer := false
    wasRegionChanged := false }

/-- One observable action of a handler: a call on the rendering engine
(`waveSurfer.*` / `region.play()`) or the `alert` in `handleClickCut`. -/
inductive Effect where
  | clearRegions
  | addRegion (start endP : ℚ) (color : String)
  | playRegion
  | play (playFrom : Option ℚ)
  | pause
  | stop
  | skipForward
  | skipBackward
  | skip (offset : ℚ)
  | alert (msg : String)
  deriving Repr, DecidableEq

/-- Is the effect a call on the rendering engine (everything except the
`alert` surfaced to the user)? -/
def isEngineCall : Effect → Bool
  | Effect.alert _ => false
  | Effect.clearRegions => true
  | Effect.addRegion _ _ _ => true
  | Effect.playRegion => true
  | Effect.play _ => true
  | Effect.pause => true
  | Effect.stop => true
  | Effect.skipForward => true
  | Effect.skipBackward => true
  | Effect.skip _ => true

/-- How the engine's region list reacts to one effect: `clearRegions`
empties it, `addRegion` appends one region, nothing else touches it. -/
def applyEffect (regions : List Region) : Effect → List Region
  | Effect.clearRegions => []
  | Effect.addRegion a b c => regions ++ [⟨a, b, c⟩]
  | Effect.playRegion => regions
  | Effect.play _ => regions
  | Effect.pause => regions
  | Effect.stop => regions
  | Effect.skipForward => regions
  | Effect.skipBackward => regions
  | Effect.skip _ => regions
  | Effect.alert _ => regions

/-- Apply a handler's effects to the engine's region list, in order. -/
def applyEffects (regions : List Region) (effs : List Effect) : List Region :=
  effs.foldl applyEffect regions

/-- `onWaveSurferReady`: compute the default region from the duration
(`[20, d-20]` when `d > 40`, else `[0, d]`), add it, and publish the
handle together with the bounds and their original snapshot.
(The `waveSurfer.on(...)` registrations are wiring, not state.) -/
def onWaveSurferReady (duration : ℚ) (s : State) : State × List Effect :=
  let cutStart : ℚ := if duration > 40 then 20 else 0
  let cutEnd : ℚ := if duration > 40 then duration - 20 else duration
  ({ s with
      hasWaveSurfer := true
      cutStart := cutStart
      cutEnd := cutEnd
      originalCutStart := cutStart
      originalCutEnd := cutEnd },
   [Effect.addRegion cutStart cutEnd REGION_COLOR])

/-- `recreateRegion`: clear all regions, then add one at the given
bounds.  Returns the effects; the source also returns the new region
object, modelled by `Effect.playRegion` at the call site. -/
def recreateRegion (startTime endTime : ℚ) : List Effect :=
  [Effect.clearRegions, Effect.addRegion startTime endTime REGION_COLOR]

/-- `onCropRegionUpdated`: bail out without a handle; when
`|start − end| > 0.25` the drag is fine and nothing happens (the title
strip is cosmetic DOM, not modelled); otherwise recreate the region at
the committed `cutStart`/`cutEnd` and, when playing, play the recreated
region.  The trailing `setState({waveSurfer})` changes no field. -/
def onCropRegionUpdated (start endP : ℚ) (s : State) : State × List Effect :=
  if s.hasWaveSurfer = false then (s, [])
  else if |start - endP| > (0.25 : ℚ) then (s, [])
  else
    (s, recreateRegion s.cutStart s.cutEnd ++
        if s.isPlaying then [Effect.playRegion] else [])

/-- `onCropRegionUpdateEnd`: bail out without a handle; otherwise the
source initialises `playFrom = 0`, then the end-edge check may set
`playFrom := end` and commit `cutEnd := end`, then the start-edge check
may overwrite `playFrom := start` and commit `cutStart := start`; both
checks compare against the bounds captured at entry.  Here the
`playFrom` chain and the state chain are written as two `if` chains,
which compute the same pair.  Finally `play(playFrom)`, and
`isPlaying := true`, `wasRegionChanged := playFrom ≠ 0`. -/
def onCropRegionUpdateEnd (start endP : ℚ) (s : State) : State × List Effect :=
  if s.hasWaveSurfer = false then (s, [])
  else
    let playFrom : ℚ := if endP ≠ s.cutEnd then endP else 0
    let playFrom : ℚ := if start ≠ s.cutStart then start else playFrom
    let s1 : State := if endP ≠ s.cutEnd then { s with cutEnd := endP } else s
    let s2 : State := if start ≠ s.cutStart then { s1 with cutStart := start } else s1
    ({ s2 with isPlaying := true, wasRegionChanged := decide (playFrom ≠ 0) },
     [Effect.play (some playFrom)])

/-- The anchor `onCropRegionUpdateEnd` resolves, as the spec phrases it:
the start edge wins, else the end edge, else `0`. -/
def resolvedAnchor (start endP : ℚ) (s : State) : ℚ :=
  if start ≠ s.cutStart then start
  else if endP ≠ s.cutEnd then endP
  else 0

/-- `handleClickTogglePlay`: bail out without a handle; pause when
playing, else play from the current position; flip `isPlaying`. -/
def handleClickTogglePlay (s : State) : State × List Effect :=
  if s.hasWaveSurfer = false then (s, [])
  else
    ({ s with isPlaying := !s.isPlaying },
     [if s.isPlaying then Effect.pause else Effect.play none])

/-- `handleClickSkip`: bail out without a handle; delegate to the
engine's fixed-increment skip in the requested direction. -/
def handleClickSkip (skipForwards : Bool) (s : State) : State × List Effect :=
  if s.hasWaveSurfer = false then (s, [])
  else (s, [if skipForwards then Effect.skipForward else Effect.skipBackward])

/-- `handleClickJump`: bail out without a handle.  `jumpToEnd = true`:
`skip(duration − current − 5)`, `pause()`, `skipForward()`, and set
`isPlaying := false`.  `jumpToEnd = false`: `stop()` and, only when
already playing, `play()`; no `setState` in that branch.  `duration`
and `current` model `getDuration()` / `getCurrentTime()` at call time. -/
def handleClickJump (jumpToEnd : Bool) (duration current : ℚ) (s : State) :
    State × List Effect :=
  if s.hasWaveSurfer = false then (s, [])
  else if jumpToEnd then
    ({ s with isPlaying := false },
     [Effect.skip (duration - current - 5), Effect.pause, Effect.skipForward])
  else
    (s, Effect.stop :: if s.isPlaying then [Effect.play none] else [])

/-- `handleClickCut`: unconditionally `alert('Not yet implemented :(')`;
no handle guard and no state change. -/
def handleClickCut (s : State) : State × List Effect :=
  (s, [Effect.alert notImplementedMsg])

/-- `handleClickCancel`: bail out without a handle; recreate the region
at the original bounds, `stop()`, then restore `cutStart`/`cutEnd` to
the originals with `isPlaying := false` and `wasRegionChanged := false`. -/
def handleClickCancel (s : State) : State × List Effect :=
  if s.hasWaveSurfer = false then (s, [])
  else
    ({ s with
        isPlaying := false
        cutStart := s.originalCutStart
        cutEnd := s.originalCutEnd
        wasRegionChanged := false },
     recreateRegion s.originalCutStart s.originalCutEnd ++ [Effect.stop])

/-- The discrete stimuli the component reacts to after readiness: the
two drag events from the regions plugin and the five UI intents.  The
drag events carry the dragged bounds; `jump` carries the engine's
duration and current time at the moment of the click. -/
inductive Event where
  | regionUpdated (start endP : ℚ)
  | regionUpdateEnd (start endP : ℚ)
  | togglePlay
  | skip (forward : Bool)
  | jump (toEnd : Bool) (duration current : ℚ)
  | cut
  | cancel
  deriving Repr, DecidableEq

/-- Component state together with the engine's region list. -/
structure System where
  state : State
  regions : List Region
  deriving Repr, DecidableEq

/-- Engine-side half of a drag event.  Modelled from the spec: the
rendering engine "owns zero or more draggable regions" and a drag moves
an existing region's bounds in place before the event fires, so the
region list keeps its length; with the one-region invariant the map
touches exactly the dragged region. -/
def dragRegions (start endP : ℚ) (regions : List Region) : List Region :=
  regions.map fun r => { r with start := start, endP := endP }

/-- One reaction step: for drag events the engine first moves the
region, then the handler runs and its effects are applied to the region
list; UI intents run the handler directly. -/
def stepEvent (sys : System) : Event → System
  | Event.regionUpdated a b =>
      let rs := dragRegions a b sys.regions
      let r := onCropRegionUpdated a b sys.state
      ⟨r.1, applyEffects rs r.2⟩
  | Event.regionUpdateEnd a b =>
      let rs := dragRegions a b sys.regions
      let r := onCropRegionUpdateEnd a b sys.state
      ⟨r.1, applyEffects rs r.2⟩
  | Event.togglePlay =>
      let r := handleClickTogglePlay sys.state
      ⟨r.1, applyEffects sys.regions r.2⟩
  | Event.skip f =>
      let r := handleClickSkip f sys.state
      ⟨r.1, applyEffects sys.regions r.2⟩
  | Event.jump t d c =>
      let r := handleClickJump t d c sys.state
      ⟨r.1, applyEffects sys.regions r.2⟩
  | Event.cut =>
      let r := handleClickCut sys.state
      ⟨r.1, applyEffects sys.regions r.2⟩
  | Event.cancel =>
      let r := handleClickCancel sys.state
      ⟨r.1, applyEffects sys.regions r.2⟩

/-- Run a sequence of events. -/
def runEvents (sys : System) (evts : List Event) : System :=
  evts.foldl stepEvent sys

/-- The system at the moment `ready` fires on a track of the given
duration, starting from pre-ready component state `s` and the engine's
empty region list. -/
def readySystem (duration : ℚ) (s : State) : System :=
  let r := onWaveSurferReady duration s
  ⟨r.1, applyEffects [] r.2⟩

/-- Ghost step tracking, next to the system, the anchor resolved by the
last `region-update-end` since readiness or the last `cancel` (`0` when
none). -/
def stepTracked (p : System × ℚ) (e : Event) : System × ℚ :=
  (stepEvent p.1 e,
   match e with
   | Event.regionUpdateEnd a b =>
       if p.1.state.hasWaveSurfer then resolvedAnchor a b p.1.state else p.2
   | Event.cancel => if p.1.state.hasWaveSurfer then 0 else p.2
   | _ => p.2)

/-- Run a sequence of events with anchor tracking. -/
def runTracked (p : System × ℚ) (evts : List Event) : System × ℚ :=
  evts.foldl stepTracked p

/-- A concrete ready state (a 60-second track right after `ready`, with
playback running), used by the witnesses. -/
def sampleReady : State :=
  { isPlaying := true
    originalCutStart := 20
    originalCutEnd := 40
    cutStart := 20
    cutEnd := 40
    hasWaveSurfer := true
    wasRegionChanged := false }

theorem runEvents_cons (sys : System) (e : Event) (rest : List Event) :
    runEvents sys (e :: rest) = runEvents (stepEvent sys e) rest := rfl

theorem originals_preserved_step (sys : System) (e : Event) :
    (stepEvent sys e).state.originalCutStart = sys.state.originalCutStart ∧
    (stepEvent sys e).state.originalCutEnd = sys.state.originalCutEnd := by
  cases e <;>
    simp only [stepEvent, onCropRegionUpdated, onCropRegionUpdateEnd,
      handleClickTogglePlay, handleClickSkip, handleClickJump, handleClickCut,
      handleClickCancel] <;>
    (try split_ifs) <;> simp

theorem originals_preserved (sys : System) (evts : List Event) :
    (runEvents sys evts).state.originalCutStart = sys.state.originalCutStart ∧
    (runEvents sys evts).state.originalCutEnd = sys.state.originalCutEnd := by
  induction evts generalizing sys with
  | nil => exact ⟨rfl, rfl⟩
  | cons e rest ih =>
      rw [runEvents_cons]
      have h := originals_preserved_step sys e
      have h2 := ih (stepEvent sys e)
      exact ⟨h2.1.trans h.1, h2.2.trans h.2⟩

/-- C1: a `region-updated` event with `|start − end| ≤ 0.25` while the
handle is present leaves the whole session state unchanged (in
particular the committed `cutStart`/`cutEnd`, the originals and
`wasRegionChanged`), emits exactly clear-all-regions followed by adding
one region at the committed bounds, plus playing the recreated region
when `isPlaying`; applied to any engine region list the effects leave
exactly the one committed region, so a region of width ≤ 0.25 is never
committed by this handler. -/
theorem collision_guard_recreates (a b : ℚ) (s : State) (rs : List Region)
    (hws : s.hasWaveSurfer = true) (hcol : |a - b| ≤ (0.25 : ℚ)) :
    (onCropRegionUpdated a b s).1 = s ∧
    (onCropRegionUpdated a b s).2 =
      recreateRegion s.cutStart s.cutEnd ++
        (if s.isPlaying then [Effect.playRegion] else []) ∧
    applyEffects rs (onCropRegionUpdated a b s).2 =
      [⟨s.cutStart, s.cutEnd, REGION_COLOR⟩] := by
  have h1 : ¬ (|a - b| > (0.25 : ℚ)) := not_lt.mpr hcol
  by_cases hp : s.isPlaying <;>
    simp [onCropRegionUpdated, hws, h1, hp, recreateRegion, applyEffects,
      applyEffect]

theorem collision_guard_recreates_witness :
    (sampleReady.hasWaveSurfer = true ∧
      |(30.1 : ℚ) - 30.2| ≤ (0.25 : ℚ)) ∧
    ((onCropRegionUpdated 30.1 30.2 sampleReady).1 = sampleReady ∧
     (onCropRegionUpdated 30.1 30.2 sampleReady).2 =
       recreateRegion sampleReady.cutStart sampleReady.cutEnd ++
         (if sampleReady.isPlaying then [Effect.playRegion] else []) ∧
     applyEffects [⟨30.1, 30.2, REGION_COLOR⟩]
         (onCropRegionUpdated 30.1 30.2 sampleReady).2 =
       [⟨sampleReady.cutStart, sampleReady.cutEnd, REGION_COLOR⟩]) :=
  ⟨⟨rfl, by rw [abs_le]; constructor <;> norm_num⟩,
   collision_guard_recreates 30.1 30.2 sampleReady [⟨30.1, 30.2, REGION_COLOR⟩]
     rfl (by rw [abs_le]; constructor <;> norm_num)⟩

/-- C2: a `region-update-end` event while the handle is present commits
`cutEnd := end` exactly when `end ≠ cutEnd` and `cutStart := start`
exactly when `start ≠ cutStart`; the playback anchor is `start` when the
start edge moved (the start-edge check wins), else `end` when the end
edge moved, else `0`; the handler plays from that anchor, sets
`isPlaying := true` and `wasRegionChanged := (anchor ≠ 0)`, and leaves
the original bounds alone. -/
theorem updateEnd_commits (a b : ℚ) (s : State) (hws : s.hasWaveSurfer = true) :
    (onCropRegionUpdateEnd a b s).1.cutEnd =
      (if b ≠ s.cutEnd then b else s.cutEnd) ∧
    (onCropRegionUpdateEnd a b s).1.cutStart =
      (if a ≠ s.cutStart then a else s.cutStart) ∧
    (onCropRegionUpdateEnd a b s).1.isPlaying = true ∧
    ((onCropRegionUpdateEnd a b s).1.wasRegionChanged = true ↔
      resolvedAnchor a b s ≠ 0) ∧
    (onCropRegionUpdateEnd a b s).2 =
      [Effect.play (some (resolvedAnchor a b s))] ∧
    (onCropRegionUpdateEnd a b s).1.originalCutStart = s.originalCutStart ∧
    (onCropRegionUpdateEnd a b s).1.originalCutEnd = s.originalCutEnd := by
  by_cases he : b = s.cutEnd <;> by_cases hs : a = s.cutStart <;>
    simp [onCropRegionUpdateEnd, resolvedAnchor, hws, he, hs]

theorem updateEnd_commits_witness :
    sampleReady.hasWaveSurfer = true ∧
    ((onCropRegionUpdateEnd 20 25 sampleReady).1.cutEnd =
      (if (25 : ℚ) ≠ sampleReady.cutEnd then 25 else sampleReady.cutEnd) ∧
     (onCropRegionUpdateEnd 20 25 sampleReady).1.cutStart =
      (if (20 : ℚ) ≠ sampleReady.cutStart then 20 else sampleReady.cutStart) ∧
     (onCropRegionUpdateEnd 20 25 sampleReady).1.isPlaying = true ∧
     ((onCropRegionUpdateEnd 20 25 sampleReady).1.wasRegionChanged = true ↔
       resolvedAnchor 20 25 sampleReady ≠ 0) ∧
     (onCropRegionUpdateEnd 20 25 sampleReady).2 =
       [Effect.play (some (resolvedAnchor 20 25 sampleReady))] ∧
     (onCropRegionUpdateEnd 20 25 sampleReady).1.originalCutStart =
       sampleReady.originalCutStart ∧
     (onCropRegionUpdateEnd 20 25 sampleReady).1.originalCutEnd =
       sampleReady.originalCutEnd) :=
  ⟨rfl, updateEnd_commits 20 25 sampleReady rfl⟩

/-- C3: at the moment `ready` fires with duration `d` the created region
and the committed bounds are `[20, d − 20]` when `d > 40` and `[0, d]`
otherwise; the original bounds are set equal to those bounds at that
moment and are never touched again by any later event. -/
theorem ready_default_region (d : ℚ) (s : State) (rs0 : List Region)
    (evts : List Event) :
    (onWaveSurferReady d s).1.cutStart = (if d > 40 then 20 else 0) ∧
    (onWaveSurferReady d s).1.cutEnd = (if d > 40 then d - 20 else d) ∧
    (onWaveSurferReady d s).1.originalCutStart =
      (onWaveSurferReady d s).1.cutStart ∧
    (onWaveSurferReady d s).1.originalCutEnd =
      (onWaveSurferReady d s).1.cutEnd ∧
    (onWaveSurferReady d s).2 =
      [Effect.addRegion (onWaveSurferReady d s).1.cutStart
        (onWaveSurferReady d s).1.cutEnd REGION_COLOR] ∧
    (runEvents ⟨(onWaveSurferReady d s).1, rs0⟩ evts).state.originalCutStart =
      (onWaveSurferReady d s).1.cutStart ∧
    (runEvents ⟨(onWaveSurferReady d s).1, rs0⟩ evts).state.originalCutEnd =
      (onWaveSurferReady d s).1.cutEnd := by
  refine ⟨by simp [onWaveSurferReady], by simp [onWaveSurferReady],
    by simp [onWaveSurferReady], by simp [onWaveSurferReady],
    by simp [onWaveSurferReady], ?_, ?_⟩
  · exact (originals_preserved _ evts).1.trans (by simp [onWaveSurferReady])
  · exact (originals_preserved _ evts).2.trans (by simp [onWaveSurferReady])

/-- C5: with the handle present, `cancel` restores the bounds to the
originals, stops playback, clears the flags, recreates the region at
the original bounds via clear-then-add (leaving exactly that one region
in the engine), and is idempotent on the session state. -/
theorem cancel_restores_and_idempotent (s : State) (rs : List Region)
    (hws : s.hasWaveSurfer = true) :
    (handleClickCancel s).1 =
      { s with
          isPlaying := false
          cutStart := s.originalCutStart
          cutEnd := s.originalCutEnd
          wasRegionChanged := false } ∧
    (handleClickCancel s).2 =
      recreateRegion s.originalCutStart s.originalCutEnd ++ [Effect.stop] ∧
    applyEffects rs (handleClickCancel s).2 =
      [⟨s.originalCutStart, s.originalCutEnd, REGION_COLOR⟩] ∧
    (handleClickCancel (handleClickCancel s).1).1 = (handleClickCancel s).1 := by
  simp [handleClickCancel, hws, recreateRegion, applyEffects, applyEffect]

theorem cancel_restores_and_idempotent_witness :
    sampleReady.hasWaveSurfer = true ∧
    ((handleClickCancel sampleReady).1 =
      { sampleReady with
          isPlaying := false
          cutStart := sampleReady.originalCutStart
          cutEnd := sampleReady.originalCutEnd
          wasRegionChanged := false } ∧
     (handleClickCancel sampleReady).2 =
       recreateRegion sampleReady.originalCutStart sampleReady.originalCutEnd ++
         [Effect.stop] ∧
     applyEffects [⟨20, 25, REGION_COLOR⟩] (handleClickCancel sampleReady).2 =
       [⟨sampleReady.originalCutStart, sampleReady.originalCutEnd, REGION_COLOR⟩] ∧
     (handleClickCancel (handleClickCancel sampleReady).1).1 =
       (handleClickCancel sampleReady).1) :=
  ⟨rfl, cancel_restores_and_idempotent sampleReady [⟨20, 25, REGION_COLOR⟩] rfl⟩

/-- C7: with the handle present, `jump(true)` emits exactly
`skip(duration − current − 5)`, then `pause`, then one `skipForward`,
sets `isPlaying := false` unconditionally and changes nothing else; the
engine's configured skip increment is 5 seconds. -/
theorem jump_toEnd_spec (s : State) (d t : ℚ) (hws : s.hasWaveSurfer = true) :
    handleClickJump true d t s =
      ({ s with isPlaying := false },
       [Effect.skip (d - t - 5), Effect.pause, Effect.skipForward]) ∧
    waveConfig.skipLength = 5 := by
  simp [handleClickJump, hws, waveConfig]

theorem jump_toEnd_spec_witness :
    sampleReady.hasWaveSurfer = true ∧
    (handleClickJump true 60 10 sampleReady =
      ({ sampleReady with isPlaying := false },
       [Effect.skip (60 - 10 - 5), Effect.pause, Effect.skipForward]) ∧
     waveConfig.skipLength = 5) :=
  ⟨rfl, jump_toEnd_spec sampleReady 60 10 rfl⟩

/-- C9: `cut` in any state returns the state untouched and surfaces
exactly the not-implemented alert — it is total (never throws) and
never silently does nothing (its effect list is nonempty). -/
theorem cut_notice_no_mutation (s : State) :
    handleClickCut s = (s, [Effect.alert notImplementedMsg]) ∧
    (handleClickCut s).2 ≠ [] ∧
    notImplementedMsg = "Not yet implemented :(" := by
  simp [handleClickCut, notImplementedMsg]

/-- C10: with the handle present, `jump(false)` leaves the session state
unchanged (no `setState` on that path, so `isPlaying` keeps its prior
value) and emits `stop` followed by `play` exactly when the session was
already playing. -/
theorem jump_toStart_frame (s : State) (d t : ℚ) (hws : s.hasWaveSurfer = true) :
    (handleClickJump false d t s).1 = s ∧
    (handleClickJump false d t s).2 =
      Effect.stop :: (if s.isPlaying then [Effect.play none] else []) := by
  simp [handleClickJump, hws]

theorem jump_toStart_frame_witness :
    sampleReady.hasWaveSurfer = true ∧
    ((handleClickJump false 60 10 sampleReady).1 = sampleReady ∧
     (handleClickJump false 60 10 sampleReady).2 =
       Effect.stop ::
         (if sampleReady.isPlaying then [Effect.play none] else [])) :=
  ⟨rfl, jump_toStart_frame sampleReady 60 10 rfl⟩

/-- C6 counterexample: the claim includes `cut` among the operations
that are *silent* no-ops when the handle is absent, but `handleClickCut`
has no handle guard: in the constructor state (no handle) it still
surfaces the not-implemented alert, so its effect list is not empty. -/
theorem cut_not_silent_counterexample :
    initialState.hasWaveSurfer = false ∧
    (handleClickCut initialState).2 = [Effect.alert notImplementedMsg] ∧
    (handleClickCut initialState).2 ≠ [] :=
  ⟨rfl, rfl, by simp [handleClickCut]⟩

/-- C6 amended: with the handle absent, `togglePlay`, `skip`, `jump`
and `cancel` are silent no-ops — state unchanged, no effect at all —
while `cut` likewise changes no state field and makes no engine call,
but does surface the not-implemented alert (it is not guarded by the
handle). -/
theorem notReady_silent_noop (s : State) (f t : Bool) (d c : ℚ)
    (hws : s.hasWaveSurfer = false) :
    handleClickTogglePlay s = (s, []) ∧
    handleClickSkip f s = (s, []) ∧
    handleClickJump t d c s = (s, []) ∧
    handleClickCancel s = (s, []) ∧
    (handleClickCut s).1 = s ∧
    (∀ e ∈ (handleClickCut s).2, isEngineCall e = false) ∧
    (handleClickCut s).2 = [Effect.alert notImplementedMsg] := by
  simp [handleClickTogglePlay, handleClickSkip, handleClickJump,
    handleClickCancel, handleClickCut, hws, isEngineCall]

theorem notReady_silent_noop_witness :
    initialState.hasWaveSurfer = false ∧
    (handleClickTogglePlay initialState = (initialState, []) ∧
     handleClickSkip true initialState = (initialState, []) ∧
     handleClickJump true 60 0 initialState = (initialState, []) ∧
     handleClickCancel initialState = (initialState, []) ∧
     (handleClickCut initialState).1 = initialState ∧
     (∀ e ∈ (handleClickCut initialState).2, isEngineCall e = false) ∧
     (handleClickCut initialState).2 = [Effect.alert notImplementedMsg]) :=
  ⟨rfl, notReady_silent_noop initialState true true 60 0 rfl⟩

theorem regions_length_step (sys : System) (e : Event)
    (h : sys.regions.length = 1) :
    (stepEvent sys e).regions.length = 1 := by
  cases e <;>
    simp only [stepEvent, onCropRegionUpdated, onCropRegionUpdateEnd,
      handleClickTogglePlay, handleClickSkip, handleClickJump, handleClickCut,
      handleClickCancel, recreateRegion] <;>
    (try split_ifs) <;>
    simp [applyEffects, applyEffect, dragRegions, List.foldl, h]

theorem regions_length_run (sys : System) (evts : List Event)
    (h : sys.regions.length = 1) :
    (runEvents sys evts).regions.length = 1 := by
  induction evts generalizing sys with
  | nil => exact h
  | cons e rest ih =>
      rw [runEvents_cons]
      exact ih _ (regions_length_step sys e h)

/-- C8: starting at readiness (where the single default region is
added to the engine's empty list) and applying any sequence of drag
events and transport operations, the engine always holds exactly one
region — every recreation path goes through clear-then-add. -/
theorem one_region_invariant (d : ℚ) (s : State) (evts : List Event) :
    (runEvents (readySystem d s) evts).regions.length = 1 := by
  apply regions_length_run
  simp [readySystem, onWaveSurferReady, applyEffects, applyEffect]

/-- A 60-second track made ready (bounds and originals `[20, 40]`),
then two committed drags: the end handle to 25, then the end handle
back to 40. -/
def c4Run : System :=
  runEvents (readySystem 60 initialState)
    [Event.regionUpdateEnd 20 25, Event.regionUpdateEnd 20 40]

/-- C4 counterexample: after dragging the end handle away and back, the
bounds again equal the originals, yet `wasRegionChanged` is `true` —
the claimed equivalence fails in a direction the documented zero-anchor
exception (which can only force the flag to `false`) does not cover. -/
theorem changed_flag_counterexample :
    c4Run.state.wasRegionChanged = true ∧
    c4Run.state.cutStart = c4Run.state.originalCutStart ∧
    c4Run.state.cutEnd = c4Run.state.originalCutEnd ∧
    c4Run.state.hasWaveSurfer = true := by
  norm_num [c4Run, runEvents, readySystem, onWaveSurferReady, initialState,
    stepEvent, onCropRegionUpdateEnd, applyEffects, applyEffect, dragRegions,
    List.foldl]

theorem runTracked_cons (p : System × ℚ) (e : Event) (rest : List Event) :
    runTracked p (e :: rest) = runTracked (stepTracked p e) rest := rfl

theorem tracked_step (p : System × ℚ) (e : Event)
    (h : p.1.state.wasRegionChanged = decide (p.2 ≠ 0)) :
    (stepTracked p e).1.state.wasRegionChanged =
      decide ((stepTracked p e).2 ≠ 0) := by
  cases e <;>
    simp only [stepTracked, stepEvent, onCropRegionUpdated,
      onCropRegionUpdateEnd, handleClickTogglePlay, handleClickSkip,
      handleClickJump, handleClickCut, handleClickCancel, resolvedAnchor] <;>
    (try split_ifs) <;> simp_all

theorem tracked_run (p : System × ℚ) (evts : List Event)
    (h : p.1.state.wasRegionChanged = decide (p.2 ≠ 0)) :
    (runTracked p evts).1.state.wasRegionChanged =
      decide ((runTracked p evts).2 ≠ 0) := by
  induction evts generalizing p with
  | nil => exact h
  | cons e rest ih =>
      rw [runTracked_cons]
      exact ih _ (tracked_step p e h)

/-- C4 amended: in every state reachable after readiness (from a
pre-ready state whose flag is clear, as the constructor leaves it),
`wasRegionChanged` is true iff the anchor resolved by the most recent
`region-update-end` since readiness or the last `cancel` is nonzero
(`0` when there has been none).  This agrees with
"bounds ≠ originals" except in two directions: a drag resolving anchor
`0` leaves the flag `false` though the bounds may differ, and a drag
resolving a nonzero anchor leaves the flag `true` even when it moved an
edge exactly back so that the bounds again equal the originals. -/
theorem changed_flag_tracks_anchor (d : ℚ) (s0 : State) (evts : List Event)
    (h0 : s0.wasRegionChanged = false) :
    ((runTracked (readySystem d s0, 0) evts).1.state.wasRegionChanged = true ↔
      (runTracked (readySystem d s0, 0) evts).2 ≠ 0) := by
  have h1 : (readySystem d s0, (0 : ℚ)).1.state.wasRegionChanged =
      decide (((readySystem d s0, (0 : ℚ)).2) ≠ 0) := by
    simp [readySystem, onWaveSurferReady, h0]
  rw [tracked_run _ evts h1]
  simp

theorem changed_flag_tracks_anchor_witness :
    initialState.wasRegionChanged = false ∧
    ((runTracked (readySystem 60 initialState, 0)
        [Event.regionUpdateEnd 20 25]).1.state.wasRegionChanged = true ↔
      (runTracked (readySystem 60 initialState, 0)
        [Event.regionUpdateEnd 20 25]).2 ≠ 0) :=
  ⟨rfl,
   changed_flag_tracks_anchor 60 initialState [Event.regionUpdateEnd 20 25] rfl⟩

end Mozart
